import Mathlib

/-
  Verification of the tpp ("t++") expectation-to-mock-call binding engine.

  This file is a shallow embedding of the current sources of the repository
  (the tpp.go revision carrying the exactReturn flag and the reflect.go
  revision carrying mustArgMatch / argsMatch / printArgMismatch), followed by
  theorems settling the frozen claims about it.

  Modelling conventions:
  - Go `any` values are modelled by the inductive `GoVal`; the untyped nil
    interface value is `GoVal.nilV`.
  - Go `reflect.Type` is modelled by `GoType` restricted to the universe the
    library actually touches; `reflect.Type.Name()` is `GoType.name`,
    `reflect.Type.Kind()` is `GoType.kind`, `reflect.Type.String()` is
    `GoType.str`, and `reflect.Type.AssignableTo` is `assignableTo` (exact
    type equality, plus the empty interface accepting everything, plus the
    concrete error implementation satisfying the `error` interface).
  - A Return method signature is `FnType` (`ins` = parameter types, i.e.
    `NumIn`/`In(i)`; `variadic` = `IsVariadic`). For a variadic signature the
    last parameter type is the slice type, exactly as in reflect.
  - `reflect.Zero t` is `zeroOf t`; the zero value of any nilable kind is the
    nil value, as observed through `any`.
-/

namespace Tpp

/-- Model of reflect.Kind, restricted to the kinds the library inspects. -/
inductive GoKind where
  | intK | stringK | boolK | structK | ifaceK | ptrK | sliceK | mapK
  | funcK | chanK | unsafePtrK
  deriving DecidableEq, Repr

/-- Model of reflect.Type over the universe of types the library touches. -/
inductive GoType where
  | named (name : String) (kind : GoKind)
  | ptr (t : GoType)
  | slice (t : GoType)
  | chanT (t : GoType)
  | funcT
  | ifaceAny
  deriving DecidableEq, Repr

/-- reflect.Type.Name(): empty for composite (unnamed) types. -/
def GoType.name : GoType → String
  | .named s _ => s
  | _ => ""

/-- reflect.Type.Kind(). -/
def GoType.kind : GoType → GoKind
  | .named _ k => k
  | .ptr _ => .ptrK
  | .slice _ => .sliceK
  | .chanT _ => .chanK
  | .funcT => .funcK
  | .ifaceAny => .ifaceK

/-- reflect.Type.Elem() for the element-bearing types (only slices matter to
the library, for variadic tails). -/
def GoType.elem : GoType → GoType
  | .ptr t => t
  | .slice t => t
  | .chanT t => t
  | _ => .ifaceAny

/-- reflect.Type.String(), for diagnostic rendering. -/
def GoType.str : GoType → String
  | .named s _ => s
  | .ptr t => "*" ++ t.str
  | .slice t => "[]" ++ t.str
  | .chanT t => "chan " ++ t.str
  | .funcT => "func()"
  | .ifaceAny => "interface \x7b\x7d"

/-- The type `error` (a named interface type). -/
def errorType : GoType := .named "error" .ifaceK

/-- The concrete dynamic type of errors produced by the errors package. -/
def errorImplType : GoType := .ptr (.named "errorString" .structK)

/-- Model of Go `any` values as the library observes them. -/
inductive GoVal where
  | nilV
  | intV (n : Int)
  | strV (s : String)
  | boolV (b : Bool)
  | errV (msg : String)
  | marker
  | zeroV (t : GoType)
  | someV (tag : String) (t : GoType)
  deriving DecidableEq, Repr

/-- reflect.TypeOf for non-nil values (junk on nil, which is never consulted:
the code always branches on nil first). `marker` is the dynamic type of the
placeholder sentinel `templateArg` (a zero-size struct). -/
def GoVal.typeOf : GoVal → GoType
  | .nilV => .ifaceAny
  | .intV _ => .named "int" .intK
  | .strV _ => .named "string" .stringK
  | .boolV _ => .named "bool" .boolK
  | .errV _ => errorImplType
  | .marker => .named "templateArg" .structK
  | .zeroV t => t
  | .someV _ t => t

/-- Kinds whose values can be nil (reflect.Zero of these is nil). -/
def GoKind.nilable : GoKind → Bool
  | .ifaceK | .ptrK | .sliceK | .mapK | .funcK | .chanK | .unsafePtrK => true
  | _ => false

/-- reflect.Zero: the zero value of a declared type, observed through any. -/
def zeroOf (t : GoType) : GoVal :=
  match t with
  | .named "int" .intK => .intV 0
  | .named "string" .stringK => .strV ""
  | .named "bool" .boolK => .boolV false
  | t => if t.kind.nilable then .nilV else .zeroV t

/-- Model of reflect.Type.AssignableTo on this universe: exact equality, the
empty interface accepting everything, and the concrete error implementation
satisfying the error interface. -/
def assignableTo (rt target : GoType) : Bool :=
  rt == target ||
    (match target with
     | .ifaceAny => true
     | .named "error" .ifaceK => rt == errorImplType
     | _ => false)

/-- testifymock.Anything: the wildcard sentinel, a plain string constant. -/
def mockAnything : GoVal := .strV "mock.Anything"

/-- The shared default test error (tpp.go: var errDefault). -/
def errDefault : GoVal := .errV "ERROR"

/-- Model of the reflect.Type of a Return method: parameter list and
variadic flag. -/
structure FnType where
  ins : List GoType
  variadic : Bool
  deriving DecidableEq, Repr

/-- A well-formed variadic signature carries a slice as its last parameter,
as reflect guarantees for real Go functions. -/
def FnType.WF (fn : FnType) : Prop :=
  fn.variadic = true → ∃ t, fn.ins.getLast? = some (.slice t)

/-- reflect.go argAssignable: nil is assignable only to nilable kinds
(interface, pointer, slice, map, func, chan); otherwise defer to reflect
assignability of the runtime type. -/
def argAssignable (arg : GoVal) (target : GoType) : Bool :=
  match arg with
  | .nilV =>
      target.kind == .ifaceK || target.kind == .ptrK || target.kind == .sliceK ||
      target.kind == .mapK || target.kind == .funcK || target.kind == .chanK
  | v => assignableTo v.typeOf target

/-- The element type of the variadic tail of a signature. -/
def FnType.variadicElem (fn : FnType) : GoType :=
  (fn.ins.getLastD .ifaceAny).elem

/-- reflect.go argsMatch: whether the args match the given function type.
(The Kind() != Func guard of the source is vacuous here: FnType is by
construction a function type.) -/
def argsMatch (fn : FnType) (args : List GoVal) : Bool :=
  let numIn := fn.ins.length
  if fn.variadic then
    decide (numIn - 1 ≤ args.length) &&
    ((fn.ins.take (numIn - 1)).zip (args.take (numIn - 1))).all
      (fun p => argAssignable p.2 p.1) &&
    ((args.drop (numIn - 1)).all (fun a => argAssignable a fn.variadicElem))
  else
    args.length == numIn &&
    (fn.ins.zip args).all (fun p => argAssignable p.2 p.1)

/-- The rendering of the expected parameter list in printArgMismatch:
a variadic tail is shown with a leading ellipsis. -/
def expectedParams (fn : FnType) : List String :=
  fn.ins.enum.map fun p =>
    if fn.variadic && p.1 == fn.ins.length - 1 then "..." ++ p.2.elem.str
    else p.2.str

/-- The rendering of the received value list in printArgMismatch: a nil
value is rendered as the token invalid. -/
def receivedParams (args : List GoVal) : List String :=
  args.map fun a =>
    match a with
    | .nilV => "invalid"
    | v => v.typeOf.str

/-- reflect.go printArgMismatch: the diagnostic built on a Return argument
mismatch. -/
def printArgMismatch (debugName : String) (fn : FnType) (args : List GoVal) :
    String :=
  "\nReturn() called with the wrong arguments!\n" ++
  "    Function: " ++ debugName ++ "\n" ++
  "    Expected: (" ++ String.intercalate ", " (expectedParams fn) ++ ")\n" ++
  "    Received: (" ++ String.intercalate ", " (receivedParams args) ++ ")\n" ++
  "\n"

/-- reflect.go isVariadicAnyReturn: the signature takes a single variadic
parameter of empty-interface element type (the bare testify Return). -/
def isVariadicAnyReturn (fn : FnType) : Bool :=
  fn.variadic && fn.ins.length == 1 &&
    (match fn.ins.head? with
     | some (.slice .ifaceAny) => true
     | _ => false)

/-- One element of toReflectValues: a non-nil arg passes through; a nil arg
becomes the zero of the declared type when that type is nilable (or when the
signature is the bare variadic-any Return), and is an error otherwise. -/
def resolveNil (fn : FnType) (argType : GoType) (arg : GoVal) :
    Except String GoVal :=
  if arg ≠ .nilV then .ok arg
  else if isVariadicAnyReturn fn then .ok .nilV
  else
    match argType.kind with
    | .ptrK | .ifaceK | .sliceK | .mapK | .chanK | .funcK | .unsafePtrK =>
        .ok .nilV
    | _ => .error ("cannot handle nil for type: " ++ argType.str)

def toReflectValuesAux (fn : FnType) : Nat → List GoVal →
    Except String (List GoVal)
  | _, [] => .ok []
  | i, a :: rest =>
    match resolveNil fn (fn.ins.getD (min i (fn.ins.length - 1)) .ifaceAny) a
      with
    | .error msg => .error msg
    | .ok v =>
      match toReflectValuesAux fn (i + 1) rest with
      | .error msg => .error msg
      | .ok vs => .ok (v :: vs)

/-- reflect.go toReflectValues: transforms the ([]any) args into the values
passed to the Return method, rejecting a count mismatch for non-variadic
signatures and nils at non-nilable positions. -/
def toReflectValues (args : List GoVal) (fn : FnType) :
    Except String (List GoVal) :=
  if args.length ≠ fn.ins.length ∧ fn.variadic = false then
    .error "mismatched number of args"
  else
    toReflectValuesAux fn 0 args

/-- Outcome of reflectedMockCall.CallReturn: a mustArgMatch abort, a
toReflectValues error (which Expectorise escalates to an abort), or the
vector actually handed to the Return method. -/
inductive CRResult where
  | mismatch (msg : String)
  | transformErr (msg : String)
  | ok (vec : List GoVal)
  deriving DecidableEq, Repr

/-- Whether invoking Return through the adapter aborts the test: a
mustArgMatch mismatch aborts directly, and a toReflectValues error is
escalated by the Expectorise caller (which panics on a returned error). -/
def CRResult.isAbort : CRResult → Bool
  | .ok _ => false
  | _ => true

/-- The final argument vector CallReturn builds before matching: the given
values, with the injected error appended when present, else a nil error
appended when zeroValueErrs is set and a remaining declared parameter is
named error. -/
def crArgs (args : List GoVal) (retErr : Option GoVal) (zeroValueErrs : Bool)
    (fn : FnType) : List GoVal :=
  match retErr with
  | some e => args ++ [e]
  | none =>
    if zeroValueErrs &&
        (fn.ins.drop args.length).any (fun t => t.name == "error") then
      args ++ [.nilV]
    else args

/-- reflectedMockCall.CallReturn (current reflect.go): append the error or a
synthesized nil error, run mustArgMatch (abort with printArgMismatch on
failure), transform via toReflectValues, and invoke Return. -/
def CallReturn (debugName : String) (fn : FnType) (args : List GoVal)
    (retErr : Option GoVal) (zeroValueErrs : Bool) : CRResult :=
  let returnArgs := crArgs args retErr zeroValueErrs fn
  if argsMatch fn returnArgs then
    match toReflectValues returnArgs fn with
    | .error msg =>
        .transformErr ("toReflectValues failed to transform return values: " ++ msg)
    | .ok vec => .ok vec
  else
    .mismatch (printArgMismatch debugName fn returnArgs)

/-- The loop body of CallReturnEmpty: an error-named parameter receives the
injected error; other parameters receive their zero value, except a variadic
trailing parameter, which is omitted (zero-arity variadic expansion). -/
def emptyRetVec (fn : FnType) (retErr : Option GoVal) : List GoVal :=
  fn.ins.enum.filterMap fun p =>
    if retErr.isSome && p.2.name == "error" then retErr
    else if !fn.variadic || p.1 < fn.ins.length - 1 then some (zeroOf p.2)
    else none

/-- reflectedMockCall.CallReturnEmpty (current reflect.go): the vector handed
to Return when no explicit return values exist. The special first branch
handles a single parameter of unnamed type with an error supplied (the bare
testify Return). -/
def CallReturnEmpty (fn : FnType) (retErr : Option GoVal) : List GoVal :=
  if fn.ins.length == 1 && (fn.ins.headD .ifaceAny).name == "" && retErr.isSome
  then
    match retErr with
    | some e => [e]
    | none => emptyRetVec fn retErr
  else emptyRetVec fn retErr

/-- tpp.go Expect: the declarative expectation for one mock call (current
revision, with the unexported argReplacements, nTimes and exactReturn
fields). -/
structure Expect where
  Expected : Option Bool
  Return : Option (List GoVal)
  Err : Option GoVal
  argReplacements : List GoVal
  nTimes : Int
  exactReturn : Bool
  deriving DecidableEq, Repr

/-- The zero value of Expect (var e tpp.Expect). -/
def zeroExpect : Expect :=
  { Expected := none, Return := none, Err := none, argReplacements := [],
    nTimes := 0, exactReturn := false }

/-- tpp.go Return: Expected true, the given returns, exact return
semantics. A variadic Go call with no values yields an empty non-nil slice,
hence always `some`. -/
def Return (returns : List GoVal) : Expect :=
  { Expected := some true, Return := some returns, Err := none,
    argReplacements := [], nTimes := 0, exactReturn := true }

/-- tpp.go OK: Expected true, the given returns, non-exact semantics (a
missing error slot is zero-valued during Expectorise). -/
def OK (returns : List GoVal) : Expect :=
  { Expected := some true, Return := some returns, Err := none,
    argReplacements := [], nTimes := 0, exactReturn := false }

/-- tpp.go Err: Expected true with the shared default test error. -/
def Err : Expect :=
  { Expected := some true, Return := none, Err := some errDefault,
    argReplacements := [], nTimes := 0, exactReturn := false }

/-- tpp.go ErrWith: Expected true with the given error (none models a nil
error argument). -/
def ErrWith (e : Option GoVal) : Expect :=
  { Expected := some true, Return := none, Err := e,
    argReplacements := [], nTimes := 0, exactReturn := false }

/-- tpp.go Unexpected: Expected false. -/
def Unexpected : Expect :=
  { Expected := some false, Return := none, Err := none,
    argReplacements := [], nTimes := 0, exactReturn := false }

/-- tpp.go callBuilder, produced by Given. -/
structure callBuilder where
  args : List GoVal
  deriving DecidableEq, Repr

/-- tpp.go Given: start a builder with the args. -/
def Given (args : List GoVal) : callBuilder := ⟨args⟩

/-- tpp.go callBuilder.Return: Expected true, the builder args as
argReplacements, the given returns, exact return semantics. -/
def callBuilder.Return (c : callBuilder) (returns : List GoVal) : Expect :=
  { Expected := some true, Return := some returns, Err := none,
    argReplacements := c.args, nTimes := 0, exactReturn := true }

/-- tpp.go Expect.Injecting (current revision): a new Expect with ret
appended to Return, copying Expected, Err and exactReturn. The Go
append(e.Return, ret) on a nil slice yields a non-nil slice. -/
def Expect.Injecting (e : Expect) (ret : GoVal) : Expect :=
  { Expected := e.Expected, Return := some (e.Return.getD [] ++ [ret]),
    Err := e.Err, argReplacements := [], nTimes := 0,
    exactReturn := e.exactReturn }

/-- tpp.go Expect.Times. -/
def Expect.Times (e : Expect) (n : Int) : Expect :=
  { e with nTimes := n }

/-- tpp.go Expect.Once. -/
def Expect.Once (e : Expect) : Expect := e.Times 1

/-- The parsed expectoriseOptions record (WithDefaultReturns sets
defaultReturns; absent options leave it nil). -/
structure ExpOptions where
  defaultReturns : Option (List GoVal)
  deriving DecidableEq, Repr

/-- The shape of the value handed to Expectorise, as newReflectedMockCall
probes it: the structural facts reflection checks, the mutable Arguments
slice, the Return signature, and the unset-related structure (what Maybe()
returns, and that call entry's Parent and its ExpectedCalls list, entries
identified by id). -/
structure RawMock where
  debugName : String
  isStruct : Bool
  hasArgumentsField : Bool
  argumentsIsSlice : Bool
  argumentsSettable : Bool
  hasReturnMethod : Bool
  arguments : List GoVal
  returnSig : FnType
  maybeResult : Option Nat
  parentCalls : Option (Option (List Nat))
  deriving DecidableEq, Repr

/-- reflect.go newReflectedMockCall: validate the mock shape (struct, valid
settable Arguments slice, Return method), in source order. -/
def newReflectedMockCall (m : RawMock) : Except String Unit :=
  if !m.isStruct then .error "mock must be struct"
  else if !m.hasArgumentsField then .error "args must be valid"
  else if !m.argumentsIsSlice then .error "args must be slice"
  else if !m.argumentsSettable then .error "args must be mutable"
  else if !m.hasReturnMethod then .error "given mock has no Return method"
  else .ok ()

/-- The loop of safeUnsetCall: remove the first entry identical to the
target, leave the list unchanged when none matches. -/
def removeFirst : List Nat → Nat → List Nat
  | [], _ => []
  | c :: rest, t => if c = t then rest else c :: removeFirst rest t

/-- tpp.go safeUnsetCall: a nil Parent or a nil ExpectedCalls list is a
silent no-op; otherwise the first identity match is removed. -/
def safeUnsetCall (callId : Nat) (parent : Option (Option (List Nat))) :
    Option (Option (List Nat)) :=
  match parent with
  | none => none
  | some none => some none
  | some (some calls) => some (some (removeFirst calls callId))

/-- Result of unsetMock: either the safe identity-removal path through the
call Maybe() returned, or the fallback to the native Unset. -/
inductive UnsetResult where
  | safeRemoved (after : Option (Option (List Nat)))
  | fallbackUnset
  deriving DecidableEq, Repr

/-- tpp.go unsetMock: extract the call via Maybe(); if non-nil use
safeUnsetCall, else fall back to the native Unset. -/
def unsetMock (m : RawMock) : UnsetResult :=
  match m.maybeResult with
  | some cid => .safeRemoved (safeUnsetCall cid m.parentCalls)
  | none => .fallbackUnset

/-- The argument-substitution loop of the current Expectorise: the loop
index i ranges over the call arguments; a placeholder marker at index i is
replaced by argReplacements[i] when i is in range, by mock.Anything when it
is out of range; other arguments pass through. (The i++ inside the source
loop body has no effect: i is the range index.) -/
def substArgsFrom (overrides : List GoVal) : Nat → List GoVal → List GoVal
  | _, [] => []
  | i, a :: rest =>
    (if a = .marker then
      match overrides.get? i with
      | none => mockAnything
      | some v => v
     else a) :: substArgsFrom overrides (i + 1) rest

def substArgs (args overrides : List GoVal) : List GoVal :=
  substArgsFrom overrides 0 args

/-- The argument-substitution loop of the previous Expectorise revision
(src/tpp.go lines 274-289), which keeps a separate consumption index: each
marker takes the next unused override, in order, and markers in excess of
the overrides get mock.Anything. This is the behaviour the specification
text describes. -/
def substArgsSeq : List GoVal → List GoVal → List GoVal
  | [], _ => []
  | a :: rest, overrides =>
    if a = .marker then
      match overrides with
      | [] => mockAnything :: substArgsSeq rest []
      | v :: vs => v :: substArgsSeq rest vs
    else a :: substArgsSeq rest overrides

/-- The externally visible action Expectorise took. -/
inductive Action where
  | unsetA (r : UnsetResult)
  | panicA (msg : String)
  | doneA (maybe : Bool) (times : Option Int) (retVec : List GoVal)
  deriving DecidableEq, Repr

/-- The outcome of one Expectorise run: the call Arguments after the run,
and the action performed. -/
structure Outcome where
  argsAfter : List GoVal
  act : Action
  deriving DecidableEq, Repr

/-- Finish a CallReturn-based branch: Expectorise escalates both a
mustArgMatch abort and a toReflectValues error. -/
def finishCall (newargs : List GoVal) (maybe : Bool) (times : Option Int) :
    CRResult → Outcome
  | .mismatch msg => ⟨newargs, .panicA msg⟩
  | .transformErr msg => ⟨newargs, .panicA msg⟩
  | .ok vec => ⟨newargs, .doneA maybe times vec⟩

/-- tpp.go Expect.Expectorise (current revision): unset and return when
Expected is false; Maybe when Expected is nil; Times when nTimes > 0;
adapt (abort on failure); substitute placeholder arguments; then dispatch
the return configuration by the Return / Err / defaultReturns priority. -/
def Expect.Expectorise (e : Expect) (m : RawMock) (opts : ExpOptions) :
    Outcome :=
  if e.Expected = some false then ⟨m.arguments, .unsetA (unsetMock m)⟩
  else
    let maybe := e.Expected == none
    let times := if e.nTimes > 0 then some e.nTimes else none
    match newReflectedMockCall m with
    | .error msg => ⟨m.arguments, .panicA msg⟩
    | .ok _ =>
      let newargs := substArgs m.arguments e.argReplacements
      match e.Return with
      | some rv =>
          finishCall newargs maybe times
            (CallReturn m.debugName m.returnSig rv e.Err (!e.exactReturn))
      | none =>
        match e.Err with
        | some er =>
            ⟨newargs, .doneA maybe times (CallReturnEmpty m.returnSig (some er))⟩
        | none =>
          match opts.defaultReturns with
          | some d =>
              finishCall newargs maybe times
                (CallReturn m.debugName m.returnSig d none false)
          | none =>
              ⟨newargs, .doneA maybe times (CallReturnEmpty m.returnSig none)⟩

/-- The nil-slice branch of ExpectoriseMulti: Maybe the call, adapt,
replace every placeholder with mock.Anything, then the default-or-empty
return configuration. -/
def multiNilBranch (m : RawMock) (opts : ExpOptions) : Outcome :=
  match newReflectedMockCall m with
  | .error msg => ⟨m.arguments, .panicA msg⟩
  | .ok _ =>
    let newargs :=
      m.arguments.map (fun a => if a = .marker then mockAnything else a)
    match opts.defaultReturns with
    | some d =>
        finishCall newargs true none
          (CallReturn m.debugName m.returnSig d none false)
    | none => ⟨newargs, .doneA true none (CallReturnEmpty m.returnSig none)⟩

/-- tpp.go ExpectoriseMulti: the factory is modelled as the stream of calls
it would produce (invocation i yields factory i); the result is the number
of factory invocations paired with the outcome of each configured call.
A nil Expect slice (none) configures one optional defaulted call; an empty
slice configures nothing; otherwise each Expect is Expectorised, in order,
against a fresh factory call (options are not forwarded to the inner
Expectorise, as in the source). -/
def ExpectoriseMulti (ee : Option (List Expect)) (factory : Nat → RawMock)
    (opts : ExpOptions) : Nat × List Outcome :=
  match ee with
  | none => (1, [multiNilBranch (factory 0) opts])
  | some es =>
      (es.length, es.enum.map (fun p => p.2.Expectorise (factory p.1) ⟨none⟩))

/-! Concrete fixtures used by witnesses and counterexamples. `sigInty` is the
Return signature of the mockery mock of `DoThing(a, b int) (int, error)`;
`sigBare` is the Return signature of a bare testify call,
`func(...interface)`. -/

def sigInty : FnType := ⟨[.named "int" .intK, errorType], false⟩

def sigBare : FnType := ⟨[.slice .ifaceAny], true⟩

/-- An adaptable mock call with two placeholder arguments and the IntyThing
Return signature, whose Maybe() yields call id 7 with registered calls
[5, 7, 9]. -/
def mockInty : RawMock :=
  ⟨"dbg", true, true, true, true, true, [.marker, .marker], sigInty,
    some 7, some (some [5, 7, 9])⟩

/-- An adaptable mock call whose arguments mix a literal with a trailing
placeholder, with a nullary Return signature. -/
def c1mock : RawMock :=
  ⟨"dbg", true, true, true, true, true, [.strV "L", .marker], ⟨[], false⟩,
    none, none⟩

/-- The Expect of the C9 counterexample: a repeat count and argument
overrides are set. -/
def c9e : Expect :=
  { Expected := some true, Return := some [.intV 1], Err := none,
    argReplacements := [.intV 9], nTimes := 5, exactReturn := true }

/-- A value that newReflectedMockCall rejects (not a struct). -/
def mockBad : RawMock :=
  ⟨"bad", false, false, false, false, false, [.intV 1], sigInty, some 3,
    some (some [3])⟩

/-- A Return signature with an error parameter followed by a variadic
string tail. -/
def sigErrVariadic : FnType :=
  ⟨[errorType, .slice (.named "string" .stringK)], true⟩

/-- An adaptable mock call with the variadic error-bearing signature. -/
def mockErrVariadic : RawMock :=
  ⟨"dbg", true, true, true, true, true, [], sigErrVariadic, none, none⟩

/-- An adaptable bare testify call: the Return signature is variadic over
the empty interface. -/
def mockBare : RawMock :=
  ⟨"dbg", true, true, true, true, true, [.intV 1], sigBare, none, none⟩

/-! General helper lemmas. -/

theorem substArgsFrom_length (overrides : List GoVal) (n : Nat)
    (args : List GoVal) :
    (substArgsFrom overrides n args).length = args.length := by
  induction args generalizing n with
  | nil => rfl
  | cons a rest ih => simp [substArgsFrom, ih]

theorem substArgsFrom_get? (overrides : List GoVal) (args : List GoVal)
    (n i : Nat) :
    (substArgsFrom overrides n args).get? i =
      (args.get? i).map
        (fun a =>
          if a = .marker then (overrides.get? (n + i)).getD mockAnything
          else a) := by
  induction args generalizing n i with
  | nil => simp [substArgsFrom]
  | cons a rest ih =>
    cases i with
    | zero =>
      simp only [substArgsFrom, List.get?, Nat.add_zero]
      cases h : overrides.get? n <;> rfl
    | succ j =>
      simp only [substArgsFrom, List.get?]
      rw [ih (n + 1) j]
      have heq : n + 1 + j = n + (j + 1) := by omega
      rw [heq]

theorem expectorise_of_unset (e : Expect) (m : RawMock) (opts : ExpOptions)
    (h : e.Expected = some false) :
    e.Expectorise m opts = ⟨m.arguments, .unsetA (unsetMock m)⟩ := by
  simp [Expect.Expectorise, h]

theorem expectorise_argsAfter (e : Expect) (m : RawMock) (opts : ExpOptions)
    (h1 : e.Expected ≠ some false) (h2 : newReflectedMockCall m = .ok ()) :
    (e.Expectorise m opts).argsAfter =
      substArgs m.arguments e.argReplacements := by
  rw [Expect.Expectorise, if_neg h1, h2]
  cases hr : e.Return with
  | some rv =>
    simp only
    cases CallReturn m.debugName m.returnSig rv e.Err (!e.exactReturn) <;> rfl
  | none =>
    cases he : e.Err with
    | some er => rfl
    | none =>
      cases hd : opts.defaultReturns with
      | some d =>
        simp only
        cases CallReturn m.debugName m.returnSig d none false <;> rfl
      | none => rfl

theorem removeFirst_of_not_mem (l : List Nat) (t : Nat) (h : t ∉ l) :
    removeFirst l t = l := by
  induction l with
  | nil => rfl
  | cons c rest ih =>
    have hc : c ≠ t := fun hct => h (hct ▸ List.mem_cons_self c rest)
    have hr : t ∉ rest := fun hm => h (List.mem_cons_of_mem c hm)
    simp [removeFirst, hc, ih hr]

theorem removeFirst_append_first (pre post : List Nat) (t : Nat)
    (h : t ∉ pre) :
    removeFirst (pre ++ t :: post) t = pre ++ post := by
  induction pre with
  | nil => simp [removeFirst]
  | cons c rest ih =>
    have hc : c ≠ t := fun hct => h (hct ▸ List.mem_cons_self c rest)
    have hr : t ∉ rest := fun hm => h (List.mem_cons_of_mem c hm)
    simp [removeFirst, hc, ih hr]

theorem enumFrom_filterMap_some {α β : Type} (l : List α) (n : Nat)
    (f : Nat × α → Option β) (g : α → β)
    (h : ∀ i a, f (i, a) = some (g a)) :
    (List.enumFrom n l).filterMap f = l.map g := by
  induction l generalizing n with
  | nil => rfl
  | cons a rest ih =>
    simp [List.enumFrom, List.filterMap_cons, h n a, ih (n + 1)]

theorem enumFrom_get? {α : Type} (l : List α) (n i : Nat) :
    (List.enumFrom n l).get? i = (l.get? i).map (fun a => (n + i, a)) := by
  induction l generalizing n i with
  | nil => simp [List.enumFrom]
  | cons a rest ih =>
    cases i with
    | zero => simp [List.enumFrom]
    | succ j =>
      simp only [List.enumFrom, List.get?]
      rw [ih (n + 1) j]
      have heq : n + 1 + j = n + (j + 1) := by omega
      rw [heq]

theorem emptyRetVec_nonvariadic (fn : FnType) (retErr : Option GoVal)
    (hv : fn.variadic = false) :
    emptyRetVec fn retErr =
      fn.ins.map
        (fun t =>
          if retErr.isSome && t.name == "error" then retErr.getD (zeroOf t)
          else zeroOf t) := by
  unfold emptyRetVec
  rw [List.enum]
  refine enumFrom_filterMap_some fn.ins 0 _ _ (fun i t => ?_)
  simp only [hv]
  by_cases hc : retErr.isSome && t.name == "error"
  · simp only [hc, if_pos]
    cases retErr with
    | none => simp at hc
    | some e => rfl
  · simp [hc]

theorem callReturnEmpty_some_nonvariadic (fn : FnType) (er : GoVal)
    (hv : fn.variadic = false)
    (hslot : fn.ins.any (fun t => t.name == "error") = true) :
    CallReturnEmpty fn (some er) =
      fn.ins.map (fun t => if t.name == "error" then er else zeroOf t) := by
  have hguard :
      (fn.ins.length == 1 && (fn.ins.headD .ifaceAny).name == "" &&
        (some er).isSome) = false := by
    rcases hins : fn.ins with _ | ⟨t, rest⟩
    · rw [hins] at hslot; simp at hslot
    · rcases rest with _ | ⟨t2, rest2⟩
      · rw [hins] at hslot
        simp only [List.any_cons, List.any_nil, Bool.or_false] at hslot
        simp only [hins, List.headD]
        have : t.name ≠ "" := by
          intro hname
          rw [hname] at hslot
          simp at hslot
        simp [this]
      · simp [hins]
  unfold CallReturnEmpty
  rw [hguard]
  simp only [Bool.false_eq_true, if_false]
  rw [emptyRetVec_nonvariadic fn (some er) hv]
  refine List.map_congr_left (fun t _ => ?_)
  by_cases hn : t.name == "error"
  · simp [hn]
  · simp [hn]

theorem callReturnEmpty_none_nonvariadic (fn : FnType)
    (hv : fn.variadic = false) :
    CallReturnEmpty fn none = fn.ins.map zeroOf := by
  unfold CallReturnEmpty
  simp only [Option.isSome_none, Bool.and_false, Bool.false_eq_true, if_false]
  rw [emptyRetVec_nonvariadic fn none hv]
  simp

theorem expectorise_return_branch (e : Expect) (m : RawMock)
    (opts : ExpOptions) (rv : List GoVal)
    (h1 : e.Expected ≠ some false) (h2 : newReflectedMockCall m = .ok ())
    (hr : e.Return = some rv) :
    e.Expectorise m opts =
      finishCall (substArgs m.arguments e.argReplacements) (e.Expected == none)
        (if e.nTimes > 0 then some e.nTimes else none)
        (CallReturn m.debugName m.returnSig rv e.Err (!e.exactReturn)) := by
  rw [Expect.Expectorise, if_neg h1, h2]
  simp only [hr]

theorem expectorise_err_branch (e : Expect) (m : RawMock)
    (opts : ExpOptions) (er : GoVal)
    (h1 : e.Expected ≠ some false) (h2 : newReflectedMockCall m = .ok ())
    (hr : e.Return = none) (he : e.Err = some er) :
    e.Expectorise m opts =
      ⟨substArgs m.arguments e.argReplacements,
        .doneA (e.Expected == none)
          (if e.nTimes > 0 then some e.nTimes else none)
          (CallReturnEmpty m.returnSig (some er))⟩ := by
  rw [Expect.Expectorise, if_neg h1, h2]
  simp only [hr, he]

theorem expectorise_defaults_branch (e : Expect) (m : RawMock)
    (opts : ExpOptions) (d : List GoVal)
    (h1 : e.Expected ≠ some false) (h2 : newReflectedMockCall m = .ok ())
    (hr : e.Return = none) (he : e.Err = none)
    (hd : opts.defaultReturns = some d) :
    e.Expectorise m opts =
      finishCall (substArgs m.arguments e.argReplacements) (e.Expected == none)
        (if e.nTimes > 0 then some e.nTimes else none)
        (CallReturn m.debugName m.returnSig d none false) := by
  rw [Expect.Expectorise, if_neg h1, h2]
  simp only [hr, he, hd]

theorem expectorise_empty_branch (e : Expect) (m : RawMock)
    (opts : ExpOptions)
    (h1 : e.Expected ≠ some false) (h2 : newReflectedMockCall m = .ok ())
    (hr : e.Return = none) (he : e.Err = none)
    (hd : opts.defaultReturns = none) :
    e.Expectorise m opts =
      ⟨substArgs m.arguments e.argReplacements,
        .doneA (e.Expected == none)
          (if e.nTimes > 0 then some e.nTimes else none)
          (CallReturnEmpty m.returnSig none)⟩ := by
  rw [Expect.Expectorise, if_neg h1, h2]
  simp only [hr, he, hd]

/-! Claim theorems. -/

/-- C1 counterexample: with call arguments [literal, marker] and overrides
[10, 20], the claimed next-unused-in-order substitution would put 10 into
the marker slot (as the previous-revision loop substArgsSeq does), but
Expectorise substitutes the override at the marker's position, 20. -/
theorem c1_counterexample :
    (((Given [.intV 10, .intV 20]).Return []).Expectorise c1mock
        ⟨none⟩).argsAfter = [.strV "L", .intV 20] ∧
    substArgsSeq [.strV "L", .marker] [.intV 10, .intV 20] =
      [.strV "L", .intV 10] ∧
    ¬ (((Given [.intV 10, .intV 20]).Return []).Expectorise c1mock
        ⟨none⟩).argsAfter = [.strV "L", .intV 10] :=
  ⟨rfl, rfl, by decide⟩

/-- C1 (amended): on every non-unset path Expectorise rewrites the
arguments by position: the substituted vector has the same length as the
original (so no placeholder causes an index error), and the entry at index
i is the original argument when it is not the placeholder marker, the
override at index i when the marker sits at an index within the overrides,
and the mock.Anything wildcard when the marker's index is beyond the
overrides. -/
theorem c1_subst_positional (args overrides : List GoVal) (i : Nat)
    (e : Expect) (m : RawMock) (opts : ExpOptions)
    (h1 : e.Expected ≠ some false) (h2 : newReflectedMockCall m = .ok ()) :
    (substArgs args overrides).length = args.length ∧
    (substArgs args overrides).get? i =
      (args.get? i).map
        (fun a =>
          if a = .marker then (overrides.get? i).getD mockAnything else a) ∧
    (e.Expectorise m opts).argsAfter =
      substArgs m.arguments e.argReplacements :=
  ⟨substArgsFrom_length overrides 0 args,
   by have h := substArgsFrom_get? overrides args 0 i; simpa using h,
   expectorise_argsAfter e m opts h1 h2⟩

/-- C1 witness: the amended theorem applied at the Err expectation against
a concrete adaptable mock. -/
theorem c1_subst_positional_witness :
    Tpp.Err.Expected ≠ some false ∧
    newReflectedMockCall mockInty = Except.ok () ∧
    (Tpp.Err.Expectorise mockInty ⟨none⟩).argsAfter =
      substArgs mockInty.arguments [] := by
  refine ⟨by decide, rfl, ?_⟩
  exact
    (c1_subst_positional [] [] 0 Tpp.Err mockInty ⟨none⟩ (by decide) rfl).2.2

/-- C2: on any adaptable, non-unset path, Expectorise determines the return
configuration by exact priority: explicit Return values call CallReturn
with those values and the Expect error; else a set error calls
CallReturnEmpty with it; else supplied defaults call CallReturn with the
defaults and no error; else CallReturnEmpty with no error — so defaults are
consulted only when the Expect carries neither return values nor an
error. -/
theorem c2_return_priority (e : Expect) (m : RawMock) (opts : ExpOptions)
    (h1 : e.Expected ≠ some false) (h2 : newReflectedMockCall m = .ok ()) :
    (∀ rv, e.Return = some rv →
      e.Expectorise m opts =
        finishCall (substArgs m.arguments e.argReplacements)
          (e.Expected == none) (if e.nTimes > 0 then some e.nTimes else none)
          (CallReturn m.debugName m.returnSig rv e.Err (!e.exactReturn))) ∧
    (∀ er, e.Return = none → e.Err = some er →
      e.Expectorise m opts =
        ⟨substArgs m.arguments e.argReplacements,
          .doneA (e.Expected == none)
            (if e.nTimes > 0 then some e.nTimes else none)
            (CallReturnEmpty m.returnSig (some er))⟩) ∧
    (∀ d, e.Return = none → e.Err = none → opts.defaultReturns = some d →
      e.Expectorise m opts =
        finishCall (substArgs m.arguments e.argReplacements)
          (e.Expected == none) (if e.nTimes > 0 then some e.nTimes else none)
          (CallReturn m.debugName m.returnSig d none false)) ∧
    (e.Return = none → e.Err = none → opts.defaultReturns = none →
      e.Expectorise m opts =
        ⟨substArgs m.arguments e.argReplacements,
          .doneA (e.Expected == none)
            (if e.nTimes > 0 then some e.nTimes else none)
            (CallReturnEmpty m.returnSig none)⟩) :=
  ⟨fun rv hr => expectorise_return_branch e m opts rv h1 h2 hr,
   fun er hr he => expectorise_err_branch e m opts er h1 h2 hr he,
   fun d hr he hd => expectorise_defaults_branch e m opts d h1 h2 hr he hd,
   fun hr he hd => expectorise_empty_branch e m opts h1 h2 hr he hd⟩

/-- C2 witness: the defaults case applied at the zero Expect with
WithDefaultReturns values against a concrete adaptable mock. -/
theorem c2_return_priority_witness :
    zeroExpect.Expected ≠ some false ∧
    newReflectedMockCall mockInty = Except.ok () ∧
    zeroExpect.Return = none ∧ zeroExpect.Err = none ∧
    zeroExpect.Expectorise mockInty ⟨some [.intV 123, .nilV]⟩ =
      finishCall (substArgs mockInty.arguments []) (zeroExpect.Expected == none)
        (if zeroExpect.nTimes > 0 then some zeroExpect.nTimes else none)
        (CallReturn mockInty.debugName mockInty.returnSig [.intV 123, .nilV]
          none false) := by
  refine ⟨by decide, rfl, rfl, rfl, ?_⟩
  exact
    (c2_return_priority zeroExpect mockInty ⟨some [.intV 123, .nilV]⟩
      (by decide) rfl).2.2.1 [.intV 123, .nilV] rfl rfl rfl

/-- C4: for Expected pointing at false, Expectorise performs the safe unset
through the call Maybe() returns: the first identity-matching entry is
removed from the owning mock's ExpectedCalls; a nil parent, a nil list, or
no matching entry is a silent no-op; and no return configuration is
performed (the outcome is the unset action alone, arguments untouched). -/
theorem c4_unexpected_unsets (e : Expect) (m : RawMock) (opts : ExpOptions)
    (cid : Nat) (pre post calls : List Nat)
    (hexp : e.Expected = some false) (hm : m.maybeResult = some cid) :
    e.Expectorise m opts =
      ⟨m.arguments,
        .unsetA (.safeRemoved (safeUnsetCall cid m.parentCalls))⟩ ∧
    (m.parentCalls = some (some (pre ++ cid :: post)) → cid ∉ pre →
      safeUnsetCall cid m.parentCalls = some (some (pre ++ post))) ∧
    (m.parentCalls = some (some calls) → cid ∉ calls →
      safeUnsetCall cid m.parentCalls = some (some calls)) ∧
    (m.parentCalls = none → safeUnsetCall cid m.parentCalls = none) ∧
    (m.parentCalls = some none →
      safeUnsetCall cid m.parentCalls = some none) := by
  refine ⟨?_, ?_, ?_, ?_, ?_⟩
  · rw [expectorise_of_unset e m opts hexp]
    simp [unsetMock, hm]
  · intro hp hn
    rw [hp]
    simp [safeUnsetCall, removeFirst_append_first pre post cid hn]
  · intro hp hn
    rw [hp]
    simp [safeUnsetCall, removeFirst_of_not_mem calls cid hn]
  · intro hp; rw [hp]; rfl
  · intro hp; rw [hp]; rfl

/-- C4 witness: unsetting a concrete registered call with registered list
[5, 7, 9] and call id 7 removes exactly that entry. -/
theorem c4_unexpected_unsets_witness :
    Tpp.Unexpected.Expected = some false ∧
    mockInty.maybeResult = some 7 ∧
    mockInty.parentCalls = some (some ([5] ++ 7 :: [9])) ∧
    (7 : Nat) ∉ ([5] : List Nat) ∧
    Tpp.Unexpected.Expectorise mockInty ⟨none⟩ =
      ⟨mockInty.arguments, .unsetA (.safeRemoved (some (some ([5] ++ [9]))))⟩
    := by
  have h := c4_unexpected_unsets Tpp.Unexpected mockInty ⟨none⟩ 7 [5] [9] []
    rfl rfl
  refine ⟨rfl, rfl, rfl, by decide, ?_⟩
  rw [h.1, h.2.1 rfl (by decide)]

/-- C9 counterexample: Injecting appends to Return but does not preserve
the repeat count nor the argument overrides — both are reset to their zero
values in the copy. -/
theorem c9_counterexample :
    (c9e.Injecting (.intV 2)).Return = some [.intV 1, .intV 2] ∧
    c9e.nTimes = 5 ∧
    (c9e.Injecting (.intV 2)).nTimes = 0 ∧
    (c9e.Injecting (.intV 2)).nTimes ≠ c9e.nTimes ∧
    c9e.argReplacements = [.intV 9] ∧
    (c9e.Injecting (.intV 2)).argReplacements ≠ c9e.argReplacements := by
  refine ⟨rfl, rfl, rfl, by decide, rfl, by decide⟩

/-- C9 (amended): Injecting returns a new Expect with the value appended to
Return and with Expected, Err and exactReturn copied, while the repeat
count and the argument overrides are reset to zero values; the original
Expect value is not mutated. -/
theorem c9_injecting (e : Expect) (v : GoVal) :
    (e.Injecting v).Expected = e.Expected ∧
    (e.Injecting v).Return = some (e.Return.getD [] ++ [v]) ∧
    (e.Injecting v).Err = e.Err ∧
    (e.Injecting v).exactReturn = e.exactReturn ∧
    (e.Injecting v).nTimes = 0 ∧
    (e.Injecting v).argReplacements = [] :=
  ⟨rfl, rfl, rfl, rfl, rfl, rfl⟩

/-- C10: for Expected pointing at false, Expectorise returns before the
reflected adapter is constructed: the run never aborts — also for a value
the adapter would reject — the arguments are untouched, and no return
configuration happens. -/
theorem c10_unset_before_adapt (e : Expect) (m : RawMock)
    (opts : ExpOptions) (h : e.Expected = some false) :
    e.Expectorise m opts = ⟨m.arguments, .unsetA (unsetMock m)⟩ ∧
    (e.Expectorise m opts).argsAfter = m.arguments ∧
    ∀ msg, (e.Expectorise m opts).act ≠ .panicA msg := by
  have he := expectorise_of_unset e m opts h
  refine ⟨he, by rw [he], fun msg hcontra => ?_⟩
  rw [he] at hcontra
  simp at hcontra

/-- C10 witness: Unexpected applied to a non-adaptable value (not a struct)
still performs the unset without aborting. -/
theorem c10_unset_before_adapt_witness :
    Tpp.Unexpected.Expected = some false ∧
    newReflectedMockCall mockBad = Except.error "mock must be struct" ∧
    Tpp.Unexpected.Expectorise mockBad ⟨none⟩ =
      ⟨mockBad.arguments, .unsetA (unsetMock mockBad)⟩ := by
  refine ⟨rfl, rfl, ?_⟩
  exact (c10_unset_before_adapt Tpp.Unexpected mockBad ⟨none⟩ rfl).1

/-- C3: Return and Given().Return produce expectations with exact return
semantics — Expectorise invokes CallReturn with zeroValueErrs false, so the
final vector handed to the Return matcher is exactly the given values and
no nil error is auto-appended for an error-typed slot the values do not
cover — while OK produces non-exact semantics, for which such an uncovered
error-typed slot receives a synthesized nil during Expectorise. -/
theorem c3_exact_return_semantics (rv ca : List GoVal) (m : RawMock)
    (opts : ExpOptions)
    (hok : newReflectedMockCall m = .ok ())
    (hslot : (m.returnSig.ins.drop rv.length).any
        (fun t => t.name == "error") = true) :
    (Tpp.Return rv).exactReturn = true ∧
    ((Given ca).Return rv).exactReturn = true ∧
    (OK rv).exactReturn = false ∧
    crArgs rv none false m.returnSig = rv ∧
    crArgs rv none true m.returnSig = rv ++ [.nilV] ∧
    (Tpp.Return rv).Expectorise m opts =
      finishCall (substArgs m.arguments []) false none
        (CallReturn m.debugName m.returnSig rv none false) ∧
    (OK rv).Expectorise m opts =
      finishCall (substArgs m.arguments []) false none
        (CallReturn m.debugName m.returnSig rv none true) := by
  refine ⟨rfl, rfl, rfl, by simp [crArgs], by simp [crArgs, hslot], ?_, ?_⟩
  · exact expectorise_return_branch (Tpp.Return rv) m opts rv
      (by simp [Tpp.Return]) hok rfl
  · exact expectorise_return_branch (OK rv) m opts rv
      (by simp [OK]) hok rfl

/-- C3 witness: against the (int, error) Return signature, Return-style
values stay exactly as given while OK-style values get the nil error
synthesized. -/
theorem c3_exact_return_semantics_witness :
    newReflectedMockCall mockInty = Except.ok () ∧
    ((mockInty.returnSig.ins.drop 1).any (fun t => t.name == "error"))
      = true ∧
    crArgs [.intV 123] none false mockInty.returnSig = [.intV 123] ∧
    crArgs [.intV 123] none true mockInty.returnSig =
      [.intV 123, .nilV] := by
  have h := c3_exact_return_semantics [.intV 123] [] mockInty ⟨none⟩ rfl
    (by decide)
  exact ⟨rfl, by decide, h.2.2.2.1, h.2.2.2.2.1⟩

/-- C7 counterexample: against a variadic Return signature with an
error-typed parameter, Err yields a return vector of length 1, not the
full declared arity 2 — the trailing variadic parameter is omitted. -/
theorem c7_counterexample :
    mockErrVariadic.returnSig.ins.length = 2 ∧
    (mockErrVariadic.returnSig.ins.any (fun t => t.name == "error"))
      = true ∧
    (Tpp.Err.Expectorise mockErrVariadic ⟨none⟩).act =
      .doneA false none [errDefault] ∧
    ([errDefault] : List GoVal).length ≠
      mockErrVariadic.returnSig.ins.length := by
  refine ⟨rfl, rfl, rfl, by decide⟩

/-- C7 (amended): against any non-variadic Return signature with an
error-typed parameter, Err yields the full declared arity with the non-nil
default error in the error-named slots and the zero value everywhere else,
and ErrWith e yields exactly e in those slots; against a variadic
signature the trailing variadic parameter is omitted (see the
counterexample). -/
theorem c7_err_injection (m : RawMock) (opts : ExpOptions) (er : GoVal)
    (hok : newReflectedMockCall m = .ok ())
    (hv : m.returnSig.variadic = false)
    (hslot : m.returnSig.ins.any (fun t => t.name == "error") = true) :
    errDefault ≠ .nilV ∧
    Tpp.Err.Expectorise m opts =
      ⟨substArgs m.arguments [],
        .doneA false none
          (m.returnSig.ins.map
            (fun t => if t.name == "error" then errDefault else zeroOf t))⟩ ∧
    (ErrWith (some er)).Expectorise m opts =
      ⟨substArgs m.arguments [],
        .doneA false none
          (m.returnSig.ins.map
            (fun t => if t.name == "error" then er else zeroOf t))⟩ ∧
    (m.returnSig.ins.map
        (fun t => if t.name == "error" then er else zeroOf t)).length =
      m.returnSig.ins.length := by
  refine ⟨by decide, ?_, ?_, by simp⟩
  · have h := expectorise_err_branch Tpp.Err m opts errDefault
      (by simp [Tpp.Err]) hok rfl rfl
    rw [h, callReturnEmpty_some_nonvariadic m.returnSig errDefault hv hslot]
    rfl
  · have h := expectorise_err_branch (ErrWith (some er)) m opts er
      (by simp [ErrWith]) hok rfl rfl
    rw [h, callReturnEmpty_some_nonvariadic m.returnSig er hv hslot]
    rfl

/-- C7 witness: against the (int, error) signature, Err yields [0, the
default error]. -/
theorem c7_err_injection_witness :
    newReflectedMockCall mockInty = Except.ok () ∧
    mockInty.returnSig.variadic = false ∧
    (mockInty.returnSig.ins.any (fun t => t.name == "error")) = true ∧
    Tpp.Err.Expectorise mockInty ⟨none⟩ =
      ⟨substArgs mockInty.arguments [],
        .doneA false none
          (mockInty.returnSig.ins.map
            (fun t => if t.name == "error" then errDefault else zeroOf t))⟩
    := by
  have h := c7_err_injection mockInty ⟨none⟩ (.errV "boom") rfl rfl
    (by decide)
  exact ⟨rfl, rfl, by decide, h.2.1⟩

/-- C8 counterexample: against the bare variadic Return signature (arity 1)
the zero-valued Expect configures an empty return vector, not one of the
declared arity — the variadic parameter is omitted. -/
theorem c8_counterexample :
    mockBare.returnSig.ins.length = 1 ∧
    (zeroExpect.Expectorise mockBare ⟨none⟩).act = .doneA true none [] ∧
    ([] : List GoVal).length ≠ mockBare.returnSig.ins.length := by
  refine ⟨rfl, rfl, by decide⟩

/-- C8 (amended): against any adaptable call with a non-variadic Return
signature of arity N, the zero-valued Expect configures exactly N return
values, each the zero value of its declared parameter type, and marks the
call optional; against a variadic signature the trailing parameter is
omitted (see the counterexample). -/
theorem c8_zero_expect (m : RawMock)
    (hok : newReflectedMockCall m = .ok ())
    (hv : m.returnSig.variadic = false) :
    zeroExpect.Expectorise m ⟨none⟩ =
      ⟨substArgs m.arguments [],
        .doneA true none (m.returnSig.ins.map zeroOf)⟩ ∧
    (m.returnSig.ins.map zeroOf).length = m.returnSig.ins.length := by
  refine ⟨?_, by simp⟩
  have h := expectorise_empty_branch zeroExpect m ⟨none⟩
    (by simp [zeroExpect]) hok rfl rfl rfl
  rw [h, callReturnEmpty_none_nonvariadic m.returnSig hv]
  rfl

/-- C8 witness: the zero-valued Expect against the (int, error) signature
yields [0, nil] and the optional mark. -/
theorem c8_zero_expect_witness :
    newReflectedMockCall mockInty = Except.ok () ∧
    mockInty.returnSig.variadic = false ∧
    zeroExpect.Expectorise mockInty ⟨none⟩ =
      ⟨substArgs mockInty.arguments [],
        .doneA true none (mockInty.returnSig.ins.map zeroOf)⟩ :=
  ⟨rfl, rfl, (c8_zero_expect mockInty rfl rfl).1⟩

theorem finishCall_argsAfter (a : List GoVal) (b : Bool) (c : Option Int)
    (r : CRResult) : (finishCall a b c r).argsAfter = a := by
  cases r <;> rfl

/-- C6: ExpectoriseMulti distinguishes nil from empty: a nil slice invokes
the call factory exactly once, marks that call optional, substitutes every
placeholder argument with the wildcard, and applies the default-or-empty
return configuration; an explicitly empty (non-nil) slice never invokes the
factory, so nothing is configured; otherwise the factory is invoked exactly
once per Expect, in order, and Expectorise is applied to each freshly
produced call. -/
theorem c6_multi_nil_empty (f : Nat → RawMock) (opts : ExpOptions)
    (es : List Expect) (i : Nat)
    (hok : newReflectedMockCall (f 0) = .ok ()) :
    (ExpectoriseMulti none f opts).1 = 1 ∧
    (ExpectoriseMulti none f opts).2 = [multiNilBranch (f 0) opts] ∧
    (multiNilBranch (f 0) opts).argsAfter =
      (f 0).arguments.map
        (fun a => if a = .marker then mockAnything else a) ∧
    (opts.defaultReturns = none →
      (multiNilBranch (f 0) opts).act =
        .doneA true none (CallReturnEmpty (f 0).returnSig none)) ∧
    (∀ d, opts.defaultReturns = some d →
      multiNilBranch (f 0) opts =
        finishCall
          ((f 0).arguments.map
            (fun a => if a = .marker then mockAnything else a))
          true none
          (CallReturn (f 0).debugName (f 0).returnSig d none false)) ∧
    ExpectoriseMulti (some []) f opts = (0, []) ∧
    (ExpectoriseMulti (some es) f opts).1 = es.length ∧
    (ExpectoriseMulti (some es) f opts).2.get? i =
      (es.get? i).map (fun e => e.Expectorise (f i) ⟨none⟩) := by
  refine ⟨rfl, rfl, ?_, ?_, ?_, rfl, rfl, ?_⟩
  · rw [multiNilBranch, hok]
    cases hd : opts.defaultReturns with
    | none => rfl
    | some d => simp only [finishCall_argsAfter]
  · intro hd
    rw [multiNilBranch, hok, hd]
  · intro d hd
    rw [multiNilBranch, hok, hd]
  · show (es.enum.map (fun p => p.2.Expectorise (f p.1) ⟨none⟩)).get? i = _
    rw [List.get?_map, List.enum, enumFrom_get? es 0 i]
    cases h : es.get? i <;> simp [h]

/-- C6 witness: nil yields one configured optional call, empty yields none,
and a singleton slice yields one Expectorised call. -/
theorem c6_multi_nil_empty_witness :
    newReflectedMockCall mockInty = Except.ok () ∧
    (ExpectoriseMulti none (fun _ => mockInty) ⟨none⟩).1 = 1 ∧
    ExpectoriseMulti (some []) (fun _ => mockInty) ⟨none⟩ = (0, []) ∧
    (ExpectoriseMulti (some [Tpp.Err]) (fun _ => mockInty) ⟨none⟩).2.get? 0 =
      some (Tpp.Err.Expectorise mockInty ⟨none⟩) := by
  have h := c6_multi_nil_empty (fun _ => mockInty) ⟨none⟩ [Tpp.Err] 0 rfl
  exact ⟨rfl, h.1, h.2.2.2.2.2.1, by simpa using h.2.2.2.2.2.2.2⟩

theorem nilable_of_argAssignable_nil (t : GoType)
    (h : argAssignable .nilV t = true) : t.kind.nilable = true := by
  unfold argAssignable at h
  cases hk : t.kind <;> simp_all [GoKind.nilable]

theorem resolveNil_not_nil (fn : FnType) (t : GoType) (a : GoVal)
    (h : a ≠ .nilV) : resolveNil fn t a = .ok a := by
  unfold resolveNil
  simp [h]

theorem resolveNil_nil_ok (fn : FnType) (t : GoType)
    (h : isVariadicAnyReturn fn = true ∨ t.kind.nilable = true) :
    resolveNil fn t .nilV = .ok .nilV := by
  unfold resolveNil
  rcases h with h | h
  · simp [h]
  · by_cases hvar : isVariadicAnyReturn fn = true
    · simp [hvar]
    · simp only [ne_eq, not_true_eq_false, if_false, hvar]
      cases hk : t.kind <;> simp_all [GoKind.nilable]

theorem toReflectValuesAux_ok (fn : FnType) (args : List GoVal) (n : Nat)
    (h : ∀ i a, args.get? i = some a → a = .nilV →
      isVariadicAnyReturn fn = true ∨
      (fn.ins.getD (min (n + i) (fn.ins.length - 1)) .ifaceAny).kind.nilable
        = true) :
    ∃ vec, toReflectValuesAux fn n args = .ok vec := by
  induction args generalizing n with
  | nil => exact ⟨[], rfl⟩
  | cons a rest ih =>
    have hv : resolveNil fn
        (fn.ins.getD (min n (fn.ins.length - 1)) .ifaceAny) a =
        .ok (if a = .nilV then .nilV else a) := by
      by_cases hnil : a = .nilV
      · subst hnil
        simpa using resolveNil_nil_ok fn _ (by simpa using h 0 .nilV rfl rfl)
      · simp [resolveNil_not_nil fn _ a hnil, hnil]
    obtain ⟨vs, hvs⟩ := ih (n + 1) (fun i b hb hbn => by
      have h2 := h (i + 1) b (by simpa using hb) hbn
      have heq : n + (i + 1) = n + 1 + i := by omega
      rwa [heq] at h2)
    refine ⟨(if a = .nilV then .nilV else a) :: vs, ?_⟩
    simp only [toReflectValuesAux]
    rw [hv, hvs]

theorem toReflectValues_ok_of_argsMatch (fn : FnType) (args : List GoVal)
    (hwf : fn.WF) (h : argsMatch fn args = true) :
    ∃ vec, toReflectValues args fn = .ok vec := by
  cases hvar : fn.variadic with
  | false =>
    have h' := h
    rw [argsMatch] at h'
    simp only [hvar, Bool.false_eq_true, if_false] at h'
    obtain ⟨h1, h2⟩ := Bool.and_eq_true_iff.mp h'
    have hlen : args.length = fn.ins.length := by
      simpa using h1
    unfold toReflectValues
    rw [if_neg (by simp [hlen])]
    apply toReflectValuesAux_ok
    intro i a hga hnil
    right
    obtain ⟨hi, -⟩ := List.get?_eq_some.mp hga
    have hi' : i < fn.ins.length := hlen ▸ hi
    have hmin : min (0 + i) (fn.ins.length - 1) = i := by omega
    rw [hmin]
    have hGD : fn.ins.getD i .ifaceAny = fn.ins.get ⟨i, hi'⟩ := by
      rw [List.getD_eq_getD_get?, List.get?_eq_get hi']
      rfl
    rw [hGD]
    have hz : (fn.ins.zip args).get? i =
        some (fn.ins.get ⟨i, hi'⟩, a) := by
      rw [List.get?_zip_eq_some]
      exact ⟨List.get?_eq_get hi', hga⟩
    have hass := (List.all_eq_true.mp h2) _ (List.get?_mem hz)
    subst hnil
    exact nilable_of_argAssignable_nil _ hass
  | true =>
    obtain ⟨t, hlast⟩ := hwf hvar
    have hne : fn.ins ≠ [] := by
      intro hc
      rw [hc] at hlast
      exact Option.noConfusion hlast
    have hlenpos : 0 < fn.ins.length := List.length_pos.mpr hne
    have h' := h
    rw [argsMatch] at h'
    simp only [hvar, if_true] at h'
    obtain ⟨h12, h3⟩ := Bool.and_eq_true_iff.mp h'
    obtain ⟨h1, h2⟩ := Bool.and_eq_true_iff.mp h12
    unfold toReflectValues
    rw [if_neg (by simp [hvar])]
    apply toReflectValuesAux_ok
    intro i a hga hnil
    right
    obtain ⟨hi, -⟩ := List.get?_eq_some.mp hga
    by_cases hcase : i < fn.ins.length - 1
    · have hmin : min (0 + i) (fn.ins.length - 1) = i := by omega
      rw [hmin]
      have hi' : i < fn.ins.length := by omega
      have hGD : fn.ins.getD i .ifaceAny = fn.ins.get ⟨i, hi'⟩ := by
        rw [List.getD_eq_getD_get?, List.get?_eq_get hi']
        rfl
      rw [hGD]
      have hz : ((fn.ins.take (fn.ins.length - 1)).zip
          (args.take (fn.ins.length - 1))).get? i =
          some (fn.ins.get ⟨i, hi'⟩, a) := by
        rw [List.get?_zip_eq_some]
        constructor
        · rw [List.get?_take hcase]
          exact List.get?_eq_get hi'
        · rw [List.get?_take hcase]
          exact hga
      have hass := (List.all_eq_true.mp h2) _ (List.get?_mem hz)
      subst hnil
      exact nilable_of_argAssignable_nil _ hass
    · have hmin : min (0 + i) (fn.ins.length - 1) = fn.ins.length - 1 := by
        omega
      rw [hmin]
      have hGD : fn.ins.getD (fn.ins.length - 1) .ifaceAny = .slice t := by
        rw [List.getD_eq_getD_get?, ← List.getLast?_eq_get?, hlast]
        rfl
      rw [hGD]
      rfl

/-- C5: invoking the mock Return method through the adapter aborts exactly
when the final argument vector (after error appending) fails the matcher's
rules, with the mismatch never swallowed: the outcome is the mismatch abort
carrying the printArgMismatch diagnostic, which contains the expected
parameter list (rendering a variadic tail with a leading ellipsis) and the
received value list (rendering a nil value as the token invalid); the
matcher itself enforces exact arity with pointwise assignability for
non-variadic signatures, prefix-plus-element-type checking for variadic
ones, and accepts nil only against the nilable kinds (see argAssignable). -/
theorem c5_mismatch_aborts (dbg : String) (fn : FnType) (args : List GoVal)
    (retErr : Option GoVal) (zve : Bool) (i : Nat) (hwf : fn.WF) :
    ((CallReturn dbg fn args retErr zve).isAbort = true ↔
      argsMatch fn (crArgs args retErr zve fn) = false) ∧
    (argsMatch fn (crArgs args retErr zve fn) = false →
      CallReturn dbg fn args retErr zve =
        .mismatch (printArgMismatch dbg fn (crArgs args retErr zve fn))) ∧
    (∃ s1 s2 s3, printArgMismatch dbg fn (crArgs args retErr zve fn) =
      s1 ++ String.intercalate ", " (expectedParams fn) ++ s2 ++
      String.intercalate ", " (receivedParams (crArgs args retErr zve fn)) ++
      s3) ∧
    (receivedParams (crArgs args retErr zve fn)).get? i =
      ((crArgs args retErr zve fn).get? i).map
        (fun a =>
          match a with
          | .nilV => "invalid"
          | v => v.typeOf.str) ∧
    (fn.variadic = true → ∀ t, fn.ins.getLast? = some t →
      (expectedParams fn).get? (fn.ins.length - 1) =
        some ("..." ++ t.elem.str)) ∧
    (fn.variadic = false →
      (expectedParams fn).get? i = (fn.ins.get? i).map GoType.str) := by
  refine ⟨?_, ?_, ?_, ?_, ?_, ?_⟩
  · cases hm : argsMatch fn (crArgs args retErr zve fn) with
    | true =>
      obtain ⟨vec, hvec⟩ :=
        toReflectValues_ok_of_argsMatch fn (crArgs args retErr zve fn) hwf hm
      have : CallReturn dbg fn args retErr zve = .ok vec := by
        unfold CallReturn
        rw [if_pos hm, hvec]
      simp [this, CRResult.isAbort]
    | false =>
      have : CallReturn dbg fn args retErr zve =
          .mismatch (printArgMismatch dbg fn (crArgs args retErr zve fn)) := by
        unfold CallReturn
        rw [if_neg (by simp [hm])]
      simp [this, CRResult.isAbort]
  · intro hm
    unfold CallReturn
    rw [if_neg (by simp [hm])]
  · refine ⟨"\nReturn() called with the wrong arguments!\n" ++
      "    Function: " ++ dbg ++ "\n" ++ "    Expected: (",
      ")\n" ++ "    Received: (", ")\n" ++ "\n", ?_⟩
    unfold printArgMismatch
    simp [String.append_assoc]
  · unfold receivedParams
    rw [List.get?_map]
  · intro hv t ht
    unfold expectedParams
    rw [List.get?_map, List.enum, enumFrom_get?]
    rw [List.getLast?_eq_get?] at ht
    rw [ht]
    simp [hv]
  · intro hv
    unfold expectedParams
    rw [List.get?_map, List.enum, enumFrom_get?]
    cases hq : fn.ins.get? i <;> simp [hq, hv]

/-- C5 witness: an arity mismatch (one value against the (int, error)
signature) aborts with the mismatch diagnostic. -/
theorem c5_mismatch_aborts_witness :
    argsMatch sigInty (crArgs [.intV 5] none false sigInty) = false ∧
    (CallReturn "dbg" sigInty [.intV 5] none false).isAbort = true ∧
    CallReturn "dbg" sigInty [.intV 5] none false =
      .mismatch (printArgMismatch "dbg" sigInty
        (crArgs [.intV 5] none false sigInty)) := by
  have h := c5_mismatch_aborts "dbg" sigInty [.intV 5] none false 0
    (fun hc => Bool.noConfusion hc)
  refine ⟨by decide, ?_, ?_⟩
  · exact h.1.mpr (by decide)
  · exact h.2.1 (by decide)

end Tpp
